import Mathlib

/-
Verification of the grainlify escrow contracts.

Two subsystems are embedded:

1. The bounty escrow contract (lifecycle lock → release / refund, the
   three refund modes, the pre-approval protocol, the append-only refund
   history, and the anti-abuse admission gate).  Its implementation file
   is not part of the repository snapshot (only its test suite is), so
   the operations are modelled from the specification, with the observable
   behaviour pinned down by the test suite (error selection, the exclusive
   deadline boundary, approval consumption, history ordering).

2. The program escrow contract (prize pools with batch / single payouts),
   embedded directly from contracts/program-escrow/src/lib.rs.

Identities (addresses) and bounty identifiers are modelled as naturals;
i128 token quantities as Int (with the explicit i128 bound where the
source performs a checked addition).  Storage maps are association lists;
token balances are a function from address to balance.  Each contract
entry point is a function from the pre-state to `Except` of an error or
the post-state: the host commits a call's mutations atomically, so an
error return leaves the caller's state untouched by construction.
-/

/-! ### Association lists keyed by naturals -/

/-- First value stored under key `k`. -/
def lookupKey {β : Type} (k : Nat) : List (Nat × β) → Option β
  | [] => none
  | p :: l => if p.1 = k then some p.2 else lookupKey k l

/-- Drop every entry stored under key `k`. -/
def removeKey {β : Type} (k : Nat) : List (Nat × β) → List (Nat × β)
  | [] => []
  | p :: l => if p.1 = k then removeKey k l else p :: removeKey k l

/-- Store `v` under key `k`, replacing any previous entry. -/
def updKey {β : Type} (k : Nat) (v : β) (l : List (Nat × β)) : List (Nat × β) :=
  (k, v) :: removeKey k l

/-! ### The asset-transfer collaborator

Modelled from the spec: "moves value between the contract's holding
account and a recipient account; atomic per call; fails the whole
operation if insufficient balance exists".  A negative quantity is also
refused (the Stellar asset contract rejects negative transfer amounts,
as the test `test_lock_funds_negative_amount` observes). -/

/-- Balance map after moving `amt` from `src` to `dst`. -/
def applyTransfer (bal : Nat → Int) (src dst : Nat) (amt : Int) : Nat → Int :=
  fun a =>
    if a = src then (if a = dst then bal a else bal a - amt)
    else if a = dst then bal a + amt else bal a

/-- Fallible transfer: `none` when the amount is negative or `src` lacks funds. -/
def transfer (bal : Nat → Int) (src dst : Nat) (amt : Int) : Option (Nat → Int) :=
  if amt < 0 ∨ bal src < amt then none else some (applyTransfer bal src dst amt)

/-! ### Bounty escrow: data model (modelled from the spec, section 3) -/

/-- Modelled from the spec: status of one escrow record. -/
inductive EscrowStatus where
  | Locked
  | Released
  | Refunded
  | PartiallyRefunded
deriving DecidableEq

/-- Modelled from the spec: the three refund modes. -/
inductive RefundMode where
  | Full
  | Partial
  | Custom
deriving DecidableEq

/-- Modelled from the spec: one escrow record per bounty identifier. -/
structure EscrowRecord where
  depositor : Nat
  amount : Int
  remaining_amount : Int
  status : EscrowStatus
  deadline : Nat
deriving DecidableEq

/-- Modelled from the spec: one append-only refund history entry. -/
structure RefundRecord where
  amount : Int
  recipient : Nat
  mode : RefundMode
  timestamp : Nat
deriving DecidableEq

/-- Modelled from the spec: at most one outstanding approval per bounty. -/
structure RefundApproval where
  amount : Int
  recipient : Nat
  mode : RefundMode
  approved_by : Nat
deriving DecidableEq

/-- Modelled from the spec: process-wide admission-control configuration. -/
structure RateLimitConfig where
  window_size : Nat
  max_operations : Nat
  cooldown_period : Nat
deriving DecidableEq

/-- Modelled from the spec: per-actor activity, lazily created. -/
structure ActorActivity where
  last_operation_time : Nat
  operation_count : Nat
  window_start_time : Nat
  whitelisted : Bool
deriving DecidableEq

/-- Modelled from the spec: the distinguishable precondition failures, plus
the admission-control rejections and the collaborator's transfer failure. -/
inductive EscrowError where
  | BountyExists
  | BountyNotFound
  | FundsNotLocked
  | DeadlineNotPassed
  | InvalidAmount
  | RefundNotApproved
  | TransferFailed
  | Unauthorized
  | Cooldown
  | RateLimit
deriving DecidableEq

/-- Modelled from the spec: the whole storage of the bounty escrow contract,
together with the token balances of every account. -/
structure EscrowState where
  escrows : List (Nat × EscrowRecord)
  histories : List (Nat × List RefundRecord)
  approvals : List (Nat × RefundApproval)
  activities : List (Nat × ActorActivity)
  config : RateLimitConfig
  balances : Nat → Int
  contractAddr : Nat
  admin : Nat

/-- Modelled from the spec: conservative defaults so the guard is active
before explicit configuration; the test suite pins the cooldown at 60s. -/
def defaultRateLimitConfig : RateLimitConfig :=
  { window_size := 3600, max_operations := 10, cooldown_period := 60 }

/-! ### Bounty escrow: AntiAbuseGuard (modelled from the spec, section 4.3) -/

/-- Modelled from the spec: the per-actor admission gate.  A whitelisted
actor is allowed with no counter update; otherwise the cooldown check, the
window reset, and the rate-limit check run in order.  An actor with no
activity record yet is admitted and its record is lazily created (the test
suite's first operation at time 0 succeeds under the default 60s cooldown,
so a missing record cannot be treated as `last_operation_time = 0`). -/
def check_rate_limit (cfg : RateLimitConfig) (act? : Option ActorActivity)
    (now : Nat) : Except EscrowError ActorActivity :=
  match act? with
  | none =>
      .ok { last_operation_time := now, operation_count := 1,
            window_start_time := now, whitelisted := false }
  | some act =>
    if act.whitelisted then .ok act
    else if now - act.last_operation_time < cfg.cooldown_period then
      .error .Cooldown
    else if cfg.window_size ≤ now - act.window_start_time then
      if cfg.max_operations = 0 then .error .RateLimit
      else .ok { act with last_operation_time := now, operation_count := 1,
                          window_start_time := now }
    else if cfg.max_operations ≤ act.operation_count then .error .RateLimit
    else .ok { act with last_operation_time := now,
                        operation_count := act.operation_count + 1 }

/-! ### Bounty escrow: operations (modelled from the spec, sections 4.1-4.2) -/

/-- Modelled from the spec: `lock(depositor, bounty_id, amount, deadline)`.
Fails with `BountyExists` when a record already exists (the duplicate test
observes this error even inside the cooldown window, so the existence check
precedes the admission gate); then passes the admission gate; then moves
`amount` from the depositor to the contract's holding account; on success
creates the record with `status = Locked` and `remaining_amount = amount`. -/
def lock_funds (s : EscrowState) (depositor bounty_id : Nat) (amount : Int)
    (deadline now : Nat) : Except EscrowError EscrowState :=
  if (lookupKey bounty_id s.escrows).isSome then .error .BountyExists
  else
    match check_rate_limit s.config (lookupKey depositor s.activities) now with
    | .error e => .error e
    | .ok act =>
      match transfer s.balances depositor s.contractAddr amount with
      | none => .error .TransferFailed
      | some bal =>
        .ok { s with
          escrows := updKey bounty_id
            { depositor := depositor, amount := amount,
              remaining_amount := amount, status := .Locked,
              deadline := deadline } s.escrows,
          activities := updKey depositor act s.activities,
          balances := bal }

/-- Modelled from the spec: the body of `release`: valid only when the
status is `Locked`; pays the full remaining amount to the recipient,
zeroes it and marks the record `Released`. -/
def releaseGo (s : EscrowState) (bounty_id recipient : Nat)
    (rec : EscrowRecord) : Except EscrowError EscrowState :=
  if rec.status = .Locked then
    match transfer s.balances s.contractAddr recipient rec.remaining_amount with
    | none => .error .TransferFailed
    | some bal =>
      .ok { s with
        escrows := updKey bounty_id
          { rec with remaining_amount := 0, status := .Released } s.escrows,
        balances := bal }
  else .error .FundsNotLocked

/-- Modelled from the spec: `release(bounty_id, recipient)` is valid only
when the status is `Locked` (see `releaseGo` for the body). -/
def release_funds (s : EscrowState) (bounty_id recipient : Nat) :
    Except EscrowError EscrowState :=
  match lookupKey bounty_id s.escrows with
  | none => .error .BountyNotFound
  | some rec => releaseGo s bounty_id recipient rec

/-- Modelled from the spec: does the stored approval exactly match the
call's parameters?  A `Full` refund is admissible on deadline only; a
`Part`(ial) call must match the approved amount with the depositor as the
approved recipient; a `Custom` call must match amount and recipient. -/
def approvalMatches (ap : RefundApproval) (depositor : Nat)
    (amount? : Option Int) (recipient? : Option Nat) (mode : RefundMode) : Bool :=
  match mode with
  | .Full => false
  | .Partial => decide (ap.mode = .Partial ∧ amount? = some ap.amount ∧
      ap.recipient = depositor)
  | .Custom => decide (ap.mode = .Custom ∧ amount? = some ap.amount ∧
      recipient? = some ap.recipient)

/-- Modelled from the spec: whether the bounty's stored approval (if any)
matches the call's parameters. -/
def approvedFor (s : EscrowState) (bounty_id depositor : Nat)
    (amount? : Option Int) (recipient? : Option Nat) (mode : RefundMode) : Bool :=
  match lookupKey bounty_id s.approvals with
  | some ap => approvalMatches ap depositor amount? recipient? mode
  | none => false

/-- Modelled from the spec: the common tail of a successful refund — pay
`amt` to `rcpt`, decrement the remaining amount (status `Refunded` exactly
when it reaches zero, `PartiallyRefunded` otherwise), append one history
record, and delete the approval when the call was approval-matched. -/
def applyRefund (s : EscrowState) (bounty_id : Nat) (rec : EscrowRecord)
    (amt : Int) (rcpt : Nat) (mode : RefundMode) (now : Nat) (consume : Bool) :
    Except EscrowError EscrowState :=
  match transfer s.balances s.contractAddr rcpt amt with
  | none => .error .TransferFailed
  | some bal =>
    .ok { s with
      escrows := updKey bounty_id
        { rec with
            remaining_amount := rec.remaining_amount - amt,
            status := if rec.remaining_amount - amt = 0 then .Refunded
                      else .PartiallyRefunded } s.escrows,
      histories := updKey bounty_id
        (((lookupKey bounty_id s.histories).getD []) ++
          [{ amount := amt, recipient := rcpt, mode := mode, timestamp := now }])
        s.histories,
      approvals := if consume then removeKey bounty_id s.approvals
                   else s.approvals,
      balances := bal }

/-- Modelled from the spec: the per-mode amount sanity and payout of
`refund`: `Full` ignores any supplied amount and pays the remainder to
the depositor; `Partial`/`Custom` need a present amount, positive and at
most the remainder; `Custom` needs a present recipient; violations fail
with `InvalidAmount`. -/
def refundModes (s : EscrowState) (bounty_id : Nat) (rec : EscrowRecord)
    (amount? : Option Int) (recipient? : Option Nat) (mode : RefundMode)
    (now : Nat) : Except EscrowError EscrowState :=
  match mode with
  | .Full =>
    applyRefund s bounty_id rec rec.remaining_amount rec.depositor .Full now
      (approvedFor s bounty_id rec.depositor amount? recipient? .Full)
  | .Partial =>
    match amount? with
    | some a =>
      if 0 < a ∧ a ≤ rec.remaining_amount then
        applyRefund s bounty_id rec a rec.depositor .Partial now
          (approvedFor s bounty_id rec.depositor amount? recipient? .Partial)
      else .error .InvalidAmount
    | none => .error .InvalidAmount
  | .Custom =>
    match amount?, recipient? with
    | some a, some r =>
      if 0 < a ∧ a ≤ rec.remaining_amount then
        applyRefund s bounty_id rec a r .Custom now
          (approvedFor s bounty_id rec.depositor amount? recipient? .Custom)
      else .error .InvalidAmount
    | _, _ => .error .InvalidAmount

/-- Modelled from the spec: the body of `refund` once the record is found:
status `Locked` or `PartiallyRefunded`; admissibility (deadline strictly
passed, or a matching approval — never an approval for `Full`), failing
with `RefundNotApproved` for `Custom` and `DeadlineNotPassed` otherwise;
then the per-mode amount sanity in `refundModes`. -/
def refundGo (s : EscrowState) (bounty_id : Nat) (rec : EscrowRecord)
    (amount? : Option Int) (recipient? : Option Nat) (mode : RefundMode)
    (now : Nat) : Except EscrowError EscrowState :=
  if rec.status = .Locked ∨ rec.status = .PartiallyRefunded then
    if decide (rec.deadline < now) ||
        approvedFor s bounty_id rec.depositor amount? recipient? mode then
      refundModes s bounty_id rec amount? recipient? mode now
    else .error (if mode = .Custom then .RefundNotApproved
                 else .DeadlineNotPassed)
  else .error .FundsNotLocked

/-- Modelled from the spec: `refund(bounty_id, amount?, recipient?, mode)`
fails with `BountyNotFound` for an unknown identifier, and otherwise runs
the validation chain of `refundGo`. -/
def refund (s : EscrowState) (bounty_id : Nat) (amount? : Option Int)
    (recipient? : Option Nat) (mode : RefundMode) (now : Nat) :
    Except EscrowError EscrowState :=
  match lookupKey bounty_id s.escrows with
  | none => .error .BountyNotFound
  | some rec => refundGo s bounty_id rec amount? recipient? mode now

/-- Modelled from the spec: `approve_refund` is privileged-actor-only and
stores an approval capturing the caller, overwriting any prior one; it
performs no validation of the amount at approval time. -/
def approve_refund (s : EscrowState) (caller bounty_id : Nat) (amount : Int)
    (recipient : Nat) (mode : RefundMode) : Except EscrowError EscrowState :=
  if caller = s.admin then
    .ok { s with
          approvals := updKey bounty_id
            { amount := amount, recipient := recipient, mode := mode,
              approved_by := caller } s.approvals }
  else .error .Unauthorized

/-- Modelled from the spec: `get_refund_history` returns the ordered
append-only list (empty when the bounty has none yet). -/
def get_refund_history (s : EscrowState) (bounty_id : Nat) : List RefundRecord :=
  (lookupKey bounty_id s.histories).getD []

/-- One caller-facing mutating operation of the bounty escrow contract. -/
inductive EOp where
  | lock (depositor bounty_id : Nat) (amount : Int) (deadline now : Nat)
  | release (bounty_id recipient : Nat)
  | doRefund (bounty_id : Nat) (amount? : Option Int) (recipient? : Option Nat)
      (mode : RefundMode) (now : Nat)
  | approve (caller bounty_id : Nat) (amount : Int) (recipient : Nat)
      (mode : RefundMode)

/-- Dispatch one operation against the escrow state. -/
def estep (s : EscrowState) : EOp → Except EscrowError EscrowState
  | .lock d id a dl n => lock_funds s d id a dl n
  | .release id r => release_funds s id r
  | .doRefund id a? r? m n => refund s id a? r? m n
  | .approve c id a r m => approve_refund s c id a r m

/-! ### Bounty escrow: invariants -/

/-- The spec's record invariant: `0 ≤ remaining_amount ≤ amount`, a zero
remainder only in a terminal paid-out status, and a strictly partial
remainder only in `PartiallyRefunded`. -/
def recordInv (r : EscrowRecord) : Prop :=
  0 ≤ r.remaining_amount ∧ r.remaining_amount ≤ r.amount ∧
  (r.remaining_amount = 0 → r.status = .Released ∨ r.status = .Refunded) ∧
  (0 < r.remaining_amount → r.remaining_amount < r.amount →
    r.status = .PartiallyRefunded)

instance (r : EscrowRecord) : Decidable (recordInv r) := by
  unfold recordInv; infer_instance

/-- Every escrow entry of the state satisfies the record invariant. -/
def escrowInv (s : EscrowState) : Prop := ∀ p ∈ s.escrows, recordInv p.2

instance (s : EscrowState) : Decidable (escrowInv s) :=
  inferInstanceAs (Decidable (∀ p ∈ s.escrows, recordInv p.2))

/-- Sum of the amounts recorded in one bounty's refund history. -/
def histSum (s : EscrowState) (bounty_id : Nat) : Int :=
  ((get_refund_history s bounty_id).map (fun r => r.amount)).sum

/-- The spec's history invariant, restricted to bounties that were not
released: the history's sum accounts for `amount - remaining_amount`.
The companion clause ties every history entry to an existing escrow. -/
def historyInv (s : EscrowState) : Prop :=
  (∀ p ∈ s.escrows, p.2.status ≠ .Released →
    histSum s p.1 = p.2.amount - p.2.remaining_amount) ∧
  (∀ p ∈ s.histories, (lookupKey p.1 s.escrows).isSome = true)

instance (s : EscrowState) : Decidable (historyInv s) := by
  unfold historyInv; infer_instance

/-- A fresh deployment: no records, default admission configuration, the
contract at address 0 with an empty holding account, the admin at 99, and
a depositor at address 10 funded with 1000 tokens. -/
def escrowInit : EscrowState :=
  { escrows := [], histories := [], approvals := [], activities := [],
    config := defaultRateLimitConfig,
    balances := fun a => if a = 10 then 1000 else 0,
    contractAddr := 0, admin := 99 }

/-- A state with one freshly locked bounty: bounty 1, depositor 10,
amount 1000, deadline 100, the contract holding the 1000 tokens. -/
def demoState : EscrowState :=
  { escrows := [(1, { depositor := 10, amount := 1000, remaining_amount := 1000,
                      status := .Locked, deadline := 100 })],
    histories := [], approvals := [], activities := [],
    config := defaultRateLimitConfig,
    balances := fun a => if a = 0 then 1000 else 0,
    contractAddr := 0, admin := 99 }

/-- `demoState` with a stored custom-mode approval for 500 to address 20. -/
def demoApproved : EscrowState :=
  { demoState with approvals :=
      [(1, { amount := 500, recipient := 20, mode := .Custom, approved_by := 99 })] }

/-- Recover the successful result of a call, with a fallback. -/
def okOr {ε α : Type} (e : Except ε α) (d : α) : α :=
  match e with
  | .ok a => a
  | .error _ => d

/-! ### Program escrow (embedded from contracts/program-escrow/src/lib.rs) -/

/-- Record of an individual payout transaction (`PayoutRecord`). -/
structure PayoutRecord where
  recipient : Nat
  amount : Int
  timestamp : Nat
deriving DecidableEq

/-- Complete program state and configuration (`ProgramData`).  The program
identifier (a `String` in the source) is modelled as an opaque natural. -/
structure ProgramData where
  program_id : Nat
  total_funds : Int
  remaining_balance : Int
  authorized_payout_key : Nat
  payout_history : List PayoutRecord
  token_address : Nat
deriving DecidableEq

/-- The program escrow's instance storage (`PROGRAM_DATA`, absent before
`init_program`), together with every account's token balance. -/
structure PState where
  program : Option ProgramData
  balances : Nat → Int
  contractAddr : Nat

/-- One panic message of the program escrow contract. -/
inductive PErr where
  | AlreadyInitialized
  | NotInitialized
  | Unauthorized
  | LengthMismatch
  | EmptyBatch
  | NonPositiveAmount
  | Overflow
  | InsufficientBalance
deriving DecidableEq

/-- Smallest i128 value. -/
def i128_min : Int := -(2 ^ 127)

/-- Largest i128 value. -/
def i128_max : Int := 2 ^ 127 - 1

/-- `i128::checked_add`: `none` exactly when the sum leaves the i128 range. -/
def checked_add (a b : Int) : Option Int :=
  if i128_min ≤ a + b ∧ a + b ≤ i128_max then some (a + b) else none

/-- The `batch_payout` accumulation loop: reject a non-positive amount,
then add with overflow protection. -/
def sumCheckedAux (acc : Int) : List Int → Except PErr Int
  | [] => .ok acc
  | a :: rest =>
    if a ≤ 0 then .error .NonPositiveAmount
    else
      match checked_add acc a with
      | none => .error .Overflow
      | some acc2 => sumCheckedAux acc2 rest

/-- Total payout of a batch, validated element by element in order. -/
def sumChecked (l : List Int) : Except PErr Int := sumCheckedAux 0 l

/-- Build one `PayoutRecord` (the record batch/single payouts append). -/
def mkPayout (ts : Nat) (r : Nat) (a : Int) : PayoutRecord :=
  { recipient := r, amount := a, timestamp := ts }

/-- Pay each (recipient, amount) pair in order out of the contract's
account.  The token client's transfer is modelled as the plain balance
move (the contract holds the pool that `remaining_balance` accounts for). -/
def payAll (bal : Nat → Int) (c : Nat) : List (Nat × Int) → (Nat → Int)
  | [] => bal
  | (r, a) :: rest => payAll (applyTransfer bal c r a) c rest

/-- `init_program`: refuses re-initialization, then stores the program
data with zero balances and an empty history. -/
def init_program (s : PState) (program_id authorized_payout_key token_address : Nat) :
    Except PErr PState :=
  match s.program with
  | some _ => .error .AlreadyInitialized
  | none =>
    .ok { s with
          program := some
            { program_id := program_id, total_funds := 0, remaining_balance := 0,
              authorized_payout_key := authorized_payout_key,
              payout_history := [], token_address := token_address } }

/-- `lock_program_funds`: validates the amount, requires initialization,
and adds the amount to `total_funds` and `remaining_balance` (cumulative);
it performs no token transfer. -/
def lock_program_funds (s : PState) (amount : Int) : Except PErr PState :=
  if amount ≤ 0 then .error .NonPositiveAmount
  else
    match s.program with
    | none => .error .NotInitialized
    | some pd =>
      .ok { s with
            program := some
              { pd with
                  total_funds := pd.total_funds + amount,
                  remaining_balance := pd.remaining_balance + amount } }

/-- `batch_payout`: requires initialization, the authorized caller,
matching non-empty vectors, per-amount positivity with an overflow-checked
total, and a sufficient remaining balance; then transfers to each
recipient in order, appends one `PayoutRecord` per transfer, and decreases
`remaining_balance` by the total. -/
def batch_payout (s : PState) (caller : Nat) (recipients : List Nat)
    (amounts : List Int) (nowTs : Nat) : Except PErr PState :=
  match s.program with
  | none => .error .NotInitialized
  | some pd =>
    if caller = pd.authorized_payout_key then
      if recipients.length = amounts.length then
        if recipients.length = 0 then .error .EmptyBatch
        else
          match sumChecked amounts with
          | .error e => .error e
          | .ok total =>
            if total ≤ pd.remaining_balance then
              .ok { s with
                program := some
                  { pd with
                    remaining_balance := pd.remaining_balance - total,
                    payout_history := pd.payout_history ++
                      List.zipWith (mkPayout nowTs) recipients amounts },
                balances := payAll s.balances s.contractAddr
                  (List.zip recipients amounts) }
            else .error .InsufficientBalance
      else .error .LengthMismatch
    else .error .Unauthorized

/-- `single_payout`: requires initialization, the authorized caller, a
positive amount within the remaining balance; then transfers, appends one
`PayoutRecord`, and decreases `remaining_balance`. -/
def single_payout (s : PState) (caller recipient : Nat) (amount : Int)
    (nowTs : Nat) : Except PErr PState :=
  match s.program with
  | none => .error .NotInitialized
  | some pd =>
    if caller = pd.authorized_payout_key then
      if amount ≤ 0 then .error .NonPositiveAmount
      else if pd.remaining_balance < amount then .error .InsufficientBalance
      else
        .ok { s with
          program := some
            { pd with
              remaining_balance := pd.remaining_balance - amount,
              payout_history := pd.payout_history ++ [mkPayout nowTs recipient amount] },
          balances := applyTransfer s.balances s.contractAddr recipient amount }
    else .error .Unauthorized

/-- One public mutating operation of the program escrow contract. -/
inductive POp where
  | init (program_id key token : Nat)
  | lock (amount : Int)
  | batch (caller : Nat) (recipients : List Nat) (amounts : List Int) (ts : Nat)
  | single (caller recipient : Nat) (amount : Int) (ts : Nat)

/-- Dispatch one operation against the program escrow state. -/
def pstep (s : PState) : POp → Except PErr PState
  | .init pid k t => init_program s pid k t
  | .lock a => lock_program_funds s a
  | .batch c rs as ts => batch_payout s c rs as ts
  | .single c r a ts => single_payout s c r a ts

/-- The documented `ProgramData` invariant: the remaining balance accounts
for the locked total minus every recorded payout, and stays within
`[0, total_funds]`. -/
def pinv (pd : ProgramData) : Prop :=
  pd.remaining_balance =
    pd.total_funds - (pd.payout_history.map (fun r => r.amount)).sum ∧
  0 ≤ pd.remaining_balance ∧ pd.remaining_balance ≤ pd.total_funds

instance (pd : ProgramData) : Decidable (pinv pd) := by
  unfold pinv; infer_instance

/-- The invariant, whenever the program is initialized. -/
def pStateInv (s : PState) : Prop := ∀ pd, s.program = some pd → pinv pd

instance (s : PState) : Decidable (pStateInv s) :=
  match hs : s.program with
  | none =>
    isTrue (fun _ h => Option.noConfusion (hs ▸ h))
  | some pd =>
    if hp : pinv pd then
      isTrue (fun pd2 h2 => by
        rw [hs] at h2
        injection h2 with h3
        exact h3 ▸ hp)
    else isFalse (fun hall => hp (hall pd hs))

/-- An initialized program holding a 1000-token pool: program 7, backend
key 42, token 5, contract at address 1 funded with 1000 tokens. -/
def pDemo : PState :=
  { program := some
      { program_id := 7, total_funds := 1000, remaining_balance := 1000,
        authorized_payout_key := 42, payout_history := [], token_address := 5 },
    balances := fun a => if a = 1 then 1000 else 0,
    contractAddr := 1 }

/-! ### Lemmas about the key-value store -/

theorem lookupKey_mem {β : Type} {k : Nat} {v : β} {l : List (Nat × β)}
    (h : lookupKey k l = some v) : (k, v) ∈ l := by
  induction l with
  | nil => simp [lookupKey] at h
  | cons p t ih =>
    unfold lookupKey at h
    split at h
    · next heq =>
      obtain ⟨a, b⟩ := p
      injection h with h2
      simp only at heq
      subst heq; subst h2
      exact List.mem_cons_self _ _
    · exact List.mem_cons_of_mem _ (ih h)

theorem lookupKey_updKey_self {β : Type} (k : Nat) (v : β) (l : List (Nat × β)) :
    lookupKey k (updKey k v l) = some v := by
  simp [updKey, lookupKey]

theorem lookupKey_removeKey_ne {β : Type} {k k' : Nat} (h : k' ≠ k)
    (l : List (Nat × β)) : lookupKey k' (removeKey k l) = lookupKey k' l := by
  induction l with
  | nil => rfl
  | cons p t ih =>
    show lookupKey k' (if p.1 = k then removeKey k t else p :: removeKey k t) =
      lookupKey k' (p :: t)
    by_cases hp : p.1 = k
    · rw [if_pos hp, ih]
      show lookupKey k' t = if p.1 = k' then some p.2 else lookupKey k' t
      rw [if_neg (fun hk => h (by rw [← hk]; exact hp))]
    · rw [if_neg hp]
      show (if p.1 = k' then some p.2 else lookupKey k' (removeKey k t)) =
        if p.1 = k' then some p.2 else lookupKey k' t
      rw [ih]

theorem lookupKey_updKey_ne {β : Type} {k k' : Nat} (h : k' ≠ k) (v : β)
    (l : List (Nat × β)) : lookupKey k' (updKey k v l) = lookupKey k' l := by
  show (if (k, v).1 = k' then some (k, v).2 else lookupKey k' (removeKey k l)) =
    lookupKey k' l
  rw [if_neg (fun hk => h hk.symm), lookupKey_removeKey_ne h l]

theorem lookupKey_removeKey_self {β : Type} (k : Nat) (l : List (Nat × β)) :
    lookupKey k (removeKey k l) = none := by
  induction l with
  | nil => rfl
  | cons p t ih =>
    unfold removeKey
    split
    · exact ih
    · next hp =>
      unfold lookupKey
      rw [if_neg hp]
      exact ih

theorem mem_removeKey {β : Type} {p : Nat × β} {k : Nat} {l : List (Nat × β)}
    (h : p ∈ removeKey k l) : p ∈ l ∧ p.1 ≠ k := by
  induction l with
  | nil => simp [removeKey] at h
  | cons q t ih =>
    unfold removeKey at h
    split at h
    · obtain ⟨h1, h2⟩ := ih h
      exact ⟨List.mem_cons_of_mem _ h1, h2⟩
    · next hq =>
      rcases List.mem_cons.mp h with rfl | hm
      · exact ⟨List.mem_cons_self _ _, hq⟩
      · obtain ⟨h1, h2⟩ := ih hm
        exact ⟨List.mem_cons_of_mem _ h1, h2⟩

theorem mem_updKey {β : Type} {p : Nat × β} {k : Nat} {v : β} {l : List (Nat × β)}
    (h : p ∈ updKey k v l) : p = (k, v) ∨ (p ∈ l ∧ p.1 ≠ k) := by
  rcases List.mem_cons.mp h with rfl | hm
  · exact Or.inl rfl
  · exact Or.inr (mem_removeKey hm)

/-! ### Lemmas about the transfer collaborator -/

theorem transfer_eq_some {bal : Nat → Int} {src : Nat} (dst : Nat) {amt : Int}
    (h1 : 0 ≤ amt) (h2 : amt ≤ bal src) :
    transfer bal src dst amt = some (applyTransfer bal src dst amt) := by
  unfold transfer
  rw [if_neg]
  rintro (hlt | hlt) <;> omega

theorem transfer_ok_elim {bal bal2 : Nat → Int} {src dst : Nat} {amt : Int}
    (h : transfer bal src dst amt = some bal2) :
    0 ≤ amt ∧ amt ≤ bal src ∧ bal2 = applyTransfer bal src dst amt := by
  unfold transfer at h
  split at h
  · cases h
  · next hcond =>
    push_neg at hcond
    injection h with h2
    exact ⟨by omega, by omega, h2.symm⟩

theorem applyTransfer_src {bal : Nat → Int} {src dst : Nat} (h : src ≠ dst)
    (amt : Int) : applyTransfer bal src dst amt src = bal src - amt := by
  simp [applyTransfer, h]

theorem applyTransfer_dst {bal : Nat → Int} {src dst : Nat} (h : dst ≠ src)
    (amt : Int) : applyTransfer bal src dst amt dst = bal dst + amt := by
  simp [applyTransfer, h]

theorem applyTransfer_other {bal : Nat → Int} {src dst a : Nat} {amt : Int}
    (h1 : a ≠ src) (h2 : a ≠ dst) : applyTransfer bal src dst amt a = bal a := by
  simp [applyTransfer, h1, h2]

/-! ### Inversion lemmas for the escrow operations -/

theorem applyRefund_ok_elim {s : EscrowState} {id : Nat} {rec : EscrowRecord}
    {amt : Int} {rcpt : Nat} {m : RefundMode} {now : Nat} {consume : Bool}
    {s' : EscrowState} (h : applyRefund s id rec amt rcpt m now consume = .ok s') :
    ∃ bal2, transfer s.balances s.contractAddr rcpt amt = some bal2 ∧
      s' = { s with
        escrows := updKey id
          { rec with
              remaining_amount := rec.remaining_amount - amt,
              status := if rec.remaining_amount - amt = 0 then .Refunded
                        else .PartiallyRefunded } s.escrows,
        histories := updKey id
          (((lookupKey id s.histories).getD []) ++
            [{ amount := amt, recipient := rcpt, mode := m, timestamp := now }])
          s.histories,
        approvals := if consume then removeKey id s.approvals else s.approvals,
        balances := bal2 } := by
  unfold applyRefund at h
  split at h
  · cases h
  · next bal2 htr =>
    injection h with h2
    exact ⟨bal2, htr, h2.symm⟩

theorem applyRefund_eq_ok {s : EscrowState} {id : Nat} {rec : EscrowRecord}
    {amt : Int} (rcpt : Nat) (m : RefundMode) (now : Nat) (consume : Bool)
    (h1 : 0 ≤ amt) (h2 : amt ≤ s.balances s.contractAddr) :
    applyRefund s id rec amt rcpt m now consume = .ok { s with
      escrows := updKey id
        { rec with
            remaining_amount := rec.remaining_amount - amt,
            status := if rec.remaining_amount - amt = 0 then .Refunded
                      else .PartiallyRefunded } s.escrows,
      histories := updKey id
        (((lookupKey id s.histories).getD []) ++
          [{ amount := amt, recipient := rcpt, mode := m, timestamp := now }])
        s.histories,
      approvals := if consume then removeKey id s.approvals else s.approvals,
      balances := applyTransfer s.balances s.contractAddr rcpt amt } := by
  unfold applyRefund
  rw [transfer_eq_some rcpt h1 h2]

theorem refund_ok_elim {s : EscrowState} {id : Nat} {a? : Option Int}
    {r? : Option Nat} {m : RefundMode} {now : Nat} {s' : EscrowState}
    (h : refund s id a? r? m now = .ok s') :
    ∃ rec amt rcpt,
      lookupKey id s.escrows = some rec ∧
      (rec.status = .Locked ∨ rec.status = .PartiallyRefunded) ∧
      (decide (rec.deadline < now) ||
        approvedFor s id rec.depositor a? r? m) = true ∧
      (m = .Full → amt = rec.remaining_amount ∧ rcpt = rec.depositor) ∧
      (m ≠ .Full → 0 < amt ∧ a? = some amt) ∧
      (m = .Partial → rcpt = rec.depositor) ∧
      (m = .Custom → r? = some rcpt) ∧
      amt ≤ rec.remaining_amount ∧
      applyRefund s id rec amt rcpt m now
        (approvedFor s id rec.depositor a? r? m) = .ok s' := by
  unfold refund at h
  split at h
  · exact Except.noConfusion h
  next rec hrec =>
    unfold refundGo at h
    split at h
    case isFalse => exact Except.noConfusion h
    case isTrue hst =>
      split at h
      case isFalse => exact Except.noConfusion h
      case isTrue hadm =>
        unfold refundModes at h
        split at h
        case h_1 =>
          exact ⟨rec, rec.remaining_amount, rec.depositor, hrec, hst, hadm,
            fun _ => ⟨rfl, rfl⟩, fun hne => absurd rfl hne, fun _ => rfl,
            fun hh => absurd hh (by decide), le_refl _, h⟩
        case h_2 =>
          split at h
          next a =>
            split at h
            case isTrue hcond =>
              exact ⟨rec, a, rec.depositor, hrec, hst, hadm,
                fun hh => absurd hh (by decide), fun _ => ⟨hcond.1, rfl⟩,
                fun _ => rfl, fun hh => absurd hh (by decide), hcond.2, h⟩
            case isFalse => exact Except.noConfusion h
          next => exact Except.noConfusion h
        case h_3 =>
          split at h
          next a r =>
            split at h
            case isTrue hcond =>
              exact ⟨rec, a, r, hrec, hst, hadm,
                fun hh => absurd hh (by decide), fun _ => ⟨hcond.1, rfl⟩,
                fun hh => absurd hh (by decide), fun _ => rfl, hcond.2, h⟩
            case isFalse => exact Except.noConfusion h
          next => exact Except.noConfusion h

theorem lock_ok_elim {s : EscrowState} {d id : Nat} {a : Int} {dl now : Nat}
    {s' : EscrowState} (h : lock_funds s d id a dl now = .ok s') :
    ∃ act bal2, lookupKey id s.escrows = none ∧
      check_rate_limit s.config (lookupKey d s.activities) now = .ok act ∧
      transfer s.balances d s.contractAddr a = some bal2 ∧
      s' = { s with
        escrows := updKey id
          { depositor := d, amount := a, remaining_amount := a,
            status := .Locked, deadline := dl } s.escrows,
        activities := updKey d act s.activities,
        balances := bal2 } := by
  unfold lock_funds at h
  split at h
  · cases h
  · next hex =>
    split at h
    · cases h
    · next act hact =>
      split at h
      · cases h
      · next bal2 htr =>
        injection h with h2
        exact ⟨act, bal2, Option.not_isSome_iff_eq_none.mp hex, hact, htr, h2.symm⟩

theorem release_ok_elim {s : EscrowState} {id rcpt : Nat} {s' : EscrowState}
    (h : release_funds s id rcpt = .ok s') :
    ∃ rec bal2, lookupKey id s.escrows = some rec ∧ rec.status = .Locked ∧
      transfer s.balances s.contractAddr rcpt rec.remaining_amount = some bal2 ∧
      s' = { s with
        escrows := updKey id
          { rec with remaining_amount := 0, status := .Released } s.escrows,
        balances := bal2 } := by
  unfold release_funds at h
  split at h
  · cases h
  · next rec hrec =>
    unfold releaseGo at h
    split at h
    · next hst =>
      split at h
      · cases h
      · next bal2 htr =>
        injection h with h2
        exact ⟨rec, bal2, hrec, hst, htr, h2.symm⟩
    · cases h

theorem approve_ok_elim {s : EscrowState} {c id : Nat} {a : Int} {r : Nat}
    {m : RefundMode} {s' : EscrowState}
    (h : approve_refund s c id a r m = .ok s') :
    c = s.admin ∧ s' = { s with
      approvals := updKey id
                     { amount := a, recipient := r, mode := m,
                       approved_by := c } s.approvals } := by
  unfold approve_refund at h
  split at h
  · next hc =>
    injection h with h2
    exact ⟨hc, h2.symm⟩
  · cases h

/-! ### Lemmas for the program escrow -/

theorem checked_add_ok {a b c : Int} (h : checked_add a b = some c) : c = a + b := by
  unfold checked_add at h
  split at h
  · injection h with h2
    exact h2.symm
  · cases h

theorem sumCheckedAux_ok {t : Int} : ∀ {l : List Int} {acc : Int},
    sumCheckedAux acc l = .ok t → t = acc + l.sum ∧ ∀ a ∈ l, 0 < a := by
  intro l
  induction l with
  | nil =>
    intro acc h
    injection h with h2
    simp [h2]
  | cons a rest ih =>
    intro acc h
    unfold sumCheckedAux at h
    split at h
    · exact Except.noConfusion h
    next ha =>
      split at h
      · exact Except.noConfusion h
      next acc2 hadd =>
        obtain ⟨h1, h2⟩ := ih h
        refine ⟨?_, ?_⟩
        · rw [h1, checked_add_ok hadd, List.sum_cons]
          ring
        · intro x hx
          rcases List.mem_cons.mp hx with rfl | hm
          · omega
          · exact h2 x hm

theorem sumChecked_ok {l : List Int} {t : Int} (h : sumChecked l = .ok t) :
    t = l.sum ∧ ∀ a ∈ l, 0 < a := by
  obtain ⟨h1, h2⟩ := sumCheckedAux_ok h
  exact ⟨by omega, h2⟩

theorem zipWith_payout_amounts (ts : Nat) : ∀ (rs : List Nat) (amts : List Int),
    rs.length = amts.length →
    (List.zipWith (mkPayout ts) rs amts).map (fun x => x.amount) = amts := by
  intro rs
  induction rs with
  | nil =>
    intro amts h
    cases amts with
    | nil => rfl
    | cons a t => simp at h
  | cons r rt ih =>
    intro amts h
    cases amts with
    | nil => simp at h
    | cons a t =>
      simp only [List.zipWith_cons_cons, List.map_cons]
      rw [ih t (by simpa using h)]
      rfl

/-- Claim C9, invariant preservation for the program escrow contract:
every operation keeps `remaining_balance = total_funds - sum(history)`
with `0 ≤ remaining_balance ≤ total_funds`, and a successful batch payout
appends one record per recipient in vector order, decreases the remaining
balance by the checked total, and implies every validation (authorized
caller, matching non-empty lengths, positive amounts, covered balance). -/
theorem c9_program_invariant (s : PState) (op : POp) (s' : PState)
    (hinv : pStateInv s) (h : pstep s op = .ok s') :
    pStateInv s' ∧
    (∀ caller rs amts ts, op = .batch caller rs amts ts →
      ∃ pd pd', s.program = some pd ∧ s'.program = some pd' ∧
        caller = pd.authorized_payout_key ∧
        rs.length = amts.length ∧ rs.length ≠ 0 ∧
        (∀ a ∈ amts, 0 < a) ∧ amts.sum ≤ pd.remaining_balance ∧
        pd'.payout_history = pd.payout_history ++
          List.zipWith (mkPayout ts) rs amts ∧
        pd'.remaining_balance = pd.remaining_balance - amts.sum ∧
        pd'.total_funds = pd.total_funds) := by
  cases op with
  | init pid k tok =>
    replace h : init_program s pid k tok = .ok s' := h
    unfold init_program at h
    split at h
    · exact Except.noConfusion h
    next hnone =>
      injection h with h2
      subst h2
      refine ⟨?_, fun _ _ _ _ hop => POp.noConfusion hop⟩
      intro pd hpd
      simp only at hpd
      injection hpd with h3
      rw [← h3]
      exact ⟨by simp, by simp⟩
  | lock a =>
    replace h : lock_program_funds s a = .ok s' := h
    unfold lock_program_funds at h
    split at h
    · exact Except.noConfusion h
    next ha =>
      split at h
      · exact Except.noConfusion h
      next pd hpd =>
        injection h with h2
        subst h2
        refine ⟨?_, fun _ _ _ _ hop => POp.noConfusion hop⟩
        intro pd2 hpd2
        simp only at hpd2
        injection hpd2 with h3
        obtain ⟨i1, i2, i3⟩ := hinv pd hpd
        rw [← h3]
        refine ⟨?_, by simp only; omega, by simp only; omega⟩
        simp only
        omega
  | batch caller rs amts ts =>
    replace h : batch_payout s caller rs amts ts = .ok s' := h
    unfold batch_payout at h
    split at h
    · exact Except.noConfusion h
    next pd hpd =>
      split at h
      case isFalse => exact Except.noConfusion h
      case isTrue hcaller =>
        split at h
        case isFalse => exact Except.noConfusion h
        case isTrue hlen =>
          split at h
          case isTrue => exact Except.noConfusion h
          case isFalse hne =>
            split at h
            case h_1 => exact Except.noConfusion h
            case h_2 total hsum =>
              split at h
              case isFalse => exact Except.noConfusion h
              case isTrue hle =>
                injection h with h2
                subst h2
                obtain ⟨hts, hpos⟩ := sumChecked_ok hsum
                subst hts
                obtain ⟨i1, i2, i3⟩ := hinv pd hpd
                have hsum0 : 0 ≤ amts.sum :=
                  List.sum_nonneg (fun a ha => le_of_lt (hpos a ha))
                constructor
                · intro pd2 hpd2
                  simp only at hpd2
                  injection hpd2 with h3
                  rw [← h3]
                  refine ⟨?_, by simp only; omega, by simp only; omega⟩
                  simp only [List.map_append, List.sum_append,
                    zipWith_payout_amounts ts rs amts hlen]
                  omega
                · intro c2 rs2 amts2 ts2 hop
                  injection hop with e1 e2 e3 e4
                  subst e1; subst e2; subst e3; subst e4
                  exact ⟨pd, _, hpd, rfl, hcaller, hlen, hne, hpos, hle,
                    by simp, by simp, by simp⟩
  | single caller rcpt a ts =>
    replace h : single_payout s caller rcpt a ts = .ok s' := h
    unfold single_payout at h
    split at h
    · exact Except.noConfusion h
    next pd hpd =>
      split at h
      case isFalse => exact Except.noConfusion h
      case isTrue hcaller =>
        split at h
        case isTrue => exact Except.noConfusion h
        case isFalse ha =>
          split at h
          case isTrue => exact Except.noConfusion h
          case isFalse hbal =>
            injection h with h2
            subst h2
            refine ⟨?_, fun _ _ _ _ hop => POp.noConfusion hop⟩
            intro pd2 hpd2
            simp only at hpd2
            injection hpd2 with h3
            obtain ⟨i1, i2, i3⟩ := hinv pd hpd
            rw [← h3]
            refine ⟨?_, by simp only; omega, by simp only; omega⟩
            simp only [mkPayout, List.map_append, List.sum_append,
              List.map_cons, List.map_nil, List.sum_cons, List.sum_nil]
            omega

/-- Claim C9 witness: a concrete single payout out of the demo pool
preserves the invariant. -/
theorem c9_witness :
    pStateInv (okOr (pstep pDemo (.single 42 33 100 5)) pDemo) :=
  (c9_program_invariant pDemo (.single 42 33 100 5)
    (okOr (pstep pDemo (.single 42 33 100 5)) pDemo) (by decide) rfl).1

/-- Claim C10: `lock_program_funds` performs no token transfer — it only
adds the (positive) amount to `total_funds` and `remaining_balance`,
cumulatively across calls, leaving the history, keys and every token
balance unchanged; a non-positive amount or an uninitialized program is
rejected. -/
theorem c10_lock_program (s : PState) (amount : Int) :
    (∀ s', pstep s (.lock amount) = .ok s' →
      ∃ pd, s.program = some pd ∧ 0 < amount ∧
        s'.program = some { pd with
          total_funds := pd.total_funds + amount,
          remaining_balance := pd.remaining_balance + amount } ∧
        s'.balances = s.balances ∧ s'.contractAddr = s.contractAddr) ∧
    (amount ≤ 0 → pstep s (.lock amount) = .error .NonPositiveAmount) ∧
    (0 < amount → s.program = none →
      pstep s (.lock amount) = .error .NotInitialized) ∧
    (∀ a2 s' s'', pstep s (.lock amount) = .ok s' →
      pstep s' (.lock a2) = .ok s'' →
      ∀ pd, s.program = some pd →
        ∃ pd2, s''.program = some pd2 ∧
          pd2.total_funds = pd.total_funds + amount + a2 ∧
          pd2.remaining_balance = pd.remaining_balance + amount + a2 ∧
          pd2.payout_history = pd.payout_history ∧
          pd2.authorized_payout_key = pd.authorized_payout_key ∧
          pd2.token_address = pd.token_address ∧
          s''.balances = s.balances) := by
  have main : ∀ (t : PState) (a : Int) (t' : PState), pstep t (.lock a) = .ok t' →
      ∃ pd, t.program = some pd ∧ 0 < a ∧
        t'.program = some { pd with
          total_funds := pd.total_funds + a,
          remaining_balance := pd.remaining_balance + a } ∧
        t'.balances = t.balances ∧ t'.contractAddr = t.contractAddr := by
    intro t a t' h
    replace h : lock_program_funds t a = .ok t' := h
    unfold lock_program_funds at h
    split at h
    · exact Except.noConfusion h
    next ha =>
      split at h
      · exact Except.noConfusion h
      next pd hpd =>
        injection h with h2
        subst h2
        exact ⟨pd, hpd, by omega, rfl, rfl, rfl⟩
  refine ⟨main s amount, ?_, ?_, ?_⟩
  · intro ha
    show lock_program_funds s amount = .error .NonPositiveAmount
    unfold lock_program_funds
    rw [if_pos ha]
  · intro ha hnone
    show lock_program_funds s amount = .error .NotInitialized
    unfold lock_program_funds
    rw [if_neg (by omega), hnone]
  · intro a2 s' s'' h1 h2 pd hpd
    obtain ⟨pdA, hpdA, hposA, hmidA, hbalA, _⟩ := main s amount s' h1
    obtain ⟨pdm, hpdm, hpos2, hfin, hbal2, _⟩ := main s' a2 s'' h2
    rw [hpd] at hpdA
    injection hpdA with hA
    subst hA
    rw [hmidA] at hpdm
    injection hpdm with hM
    subst hM
    refine ⟨_, hfin, by simp [add_assoc], by simp [add_assoc], by simp,
      by simp, by simp, by rw [hbal2, hbalA]⟩

/-- Claim C10 witness: locking a non-positive amount is rejected. -/
theorem c10_witness : pstep pDemo (.lock 0) = .error .NonPositiveAmount :=
  (c10_lock_program pDemo 0).2.1 (by decide)

/-- Claim C8: the admission gate behaves exactly as specified for every
actor with an activity record — whitelisted actors pass unconditionally
with no counter update; otherwise the cooldown rejection, the window
reset, the rate-limit rejection and the allow-and-count update apply in
order; and the default configuration (in force from deployment, before
any explicit configuration) carries the 60-second cooldown. -/
theorem check_rate_limit_some (cfg : RateLimitConfig) (act : ActorActivity)
    (now : Nat) :
    check_rate_limit cfg (some act) now =
      if act.whitelisted then .ok act
      else if now - act.last_operation_time < cfg.cooldown_period then
        .error .Cooldown
      else if cfg.window_size ≤ now - act.window_start_time then
        if cfg.max_operations = 0 then .error .RateLimit
        else .ok { act with last_operation_time := now, operation_count := 1,
                            window_start_time := now }
      else if cfg.max_operations ≤ act.operation_count then .error .RateLimit
      else .ok { act with last_operation_time := now,
                          operation_count := act.operation_count + 1 } := rfl

theorem c8_anti_abuse (cfg : RateLimitConfig) (act : ActorActivity) (now : Nat) :
    (act.whitelisted = true → check_rate_limit cfg (some act) now = .ok act) ∧
    (act.whitelisted = false →
      now - act.last_operation_time < cfg.cooldown_period →
      check_rate_limit cfg (some act) now = .error .Cooldown) ∧
    (act.whitelisted = false →
      cfg.cooldown_period ≤ now - act.last_operation_time →
      cfg.window_size ≤ now - act.window_start_time →
      check_rate_limit cfg (some act) now =
        (if cfg.max_operations = 0 then .error .RateLimit
         else .ok { act with last_operation_time := now, operation_count := 1,
                             window_start_time := now })) ∧
    (act.whitelisted = false →
      cfg.cooldown_period ≤ now - act.last_operation_time →
      now - act.window_start_time < cfg.window_size →
      (cfg.max_operations ≤ act.operation_count →
        check_rate_limit cfg (some act) now = .error .RateLimit) ∧
      (act.operation_count < cfg.max_operations →
        check_rate_limit cfg (some act) now =
          .ok { act with last_operation_time := now,
                         operation_count := act.operation_count + 1 })) ∧
    defaultRateLimitConfig.cooldown_period = 60 ∧
    escrowInit.config = defaultRateLimitConfig := by
  refine ⟨?_, ?_, ?_, ?_, rfl, rfl⟩
  · intro hw
    rw [check_rate_limit_some, if_pos hw]
  · intro hw hcd
    rw [check_rate_limit_some,
      if_neg (by rw [hw]; exact Bool.false_ne_true), if_pos hcd]
  · intro hw hcd hwin
    rw [check_rate_limit_some,
      if_neg (by rw [hw]; exact Bool.false_ne_true),
      if_neg (by omega), if_pos hwin]
  · intro hw hcd hwin
    constructor
    · intro hmax
      rw [check_rate_limit_some,
        if_neg (by rw [hw]; exact Bool.false_ne_true),
        if_neg (by omega), if_neg (by omega), if_pos hmax]
    · intro hmax
      rw [check_rate_limit_some,
        if_neg (by rw [hw]; exact Bool.false_ne_true),
        if_neg (by omega), if_neg (by omega), if_neg (by omega)]

/-- Claim C8 witness: a whitelisted actor passes the default gate with no
counter update. -/
theorem c8_witness :
    check_rate_limit defaultRateLimitConfig
      (some { last_operation_time := 0, operation_count := 0,
              window_start_time := 0, whitelisted := true }) 5 =
    .ok { last_operation_time := 0, operation_count := 0,
          window_start_time := 0, whitelisted := true } :=
  (c8_anti_abuse defaultRateLimitConfig
    { last_operation_time := 0, operation_count := 0,
      window_start_time := 0, whitelisted := true } 5).1 rfl

/-! ### Claim C1: the record invariant -/

theorem recordInv_refund {rec : EscrowRecord} {amt : Int}
    (hinv : recordInv rec) (hpos : 0 < amt ∨ amt = rec.remaining_amount)
    (hle : amt ≤ rec.remaining_amount) :
    recordInv { rec with
      remaining_amount := rec.remaining_amount - amt,
      status := if rec.remaining_amount - amt = 0 then .Refunded
                else .PartiallyRefunded } := by
  unfold recordInv at hinv
  obtain ⟨h0, h1, h2, h3⟩ := hinv
  have hamt0 : 0 ≤ amt := by rcases hpos with h | h <;> omega
  unfold recordInv
  by_cases hz : rec.remaining_amount - amt = 0
  · refine ⟨?_, ?_, ?_, ?_⟩
    · show 0 ≤ rec.remaining_amount - amt
      omega
    · show rec.remaining_amount - amt ≤ rec.amount
      omega
    · intro _
      show (if rec.remaining_amount - amt = 0 then EscrowStatus.Refunded
            else .PartiallyRefunded) = .Released ∨
           (if rec.remaining_amount - amt = 0 then EscrowStatus.Refunded
            else .PartiallyRefunded) = .Refunded
      rw [if_pos hz]
      exact Or.inr rfl
    · intro hgt _
      have hgt' : 0 < rec.remaining_amount - amt := hgt
      omega
  · refine ⟨?_, ?_, ?_, ?_⟩
    · show 0 ≤ rec.remaining_amount - amt
      omega
    · show rec.remaining_amount - amt ≤ rec.amount
      omega
    · intro hzz
      exact absurd hzz hz
    · intro _ _
      show (if rec.remaining_amount - amt = 0 then EscrowStatus.Refunded
            else .PartiallyRefunded) = .PartiallyRefunded
      rw [if_neg hz]

/-- Claim C1, amended: provided `lock_funds` is only invoked with a
positive amount, every operation of the contract preserves the record
invariant `0 ≤ remaining_amount ≤ amount` with the status coupling
(`remaining_amount = 0` only in `Released`/`Refunded`, a strictly partial
remainder only in `PartiallyRefunded`) for every stored record. -/
theorem c1_escrow_invariant (s : EscrowState) (op : EOp) (s' : EscrowState)
    (hinv : escrowInv s)
    (hpos : ∀ d id a dl n, op = .lock d id a dl n → 0 < a)
    (h : estep s op = .ok s') : escrowInv s' := by
  cases op with
  | lock d id a dl n =>
    replace h : lock_funds s d id a dl n = .ok s' := h
    obtain ⟨act, bal2, hnone, hact, htr, rfl⟩ := lock_ok_elim h
    intro p hp
    rcases mem_updKey hp with rfl | ⟨hpl, _⟩
    · have ha : 0 < a := hpos d id a dl n rfl
      refine ⟨?_, ?_, ?_, ?_⟩
      · show 0 ≤ a
        omega
      · show a ≤ a
        omega
      · intro h0
        have h0' : a = 0 := h0
        omega
      · intro _ hlt
        have hlt' : a < a := hlt
        omega
    · exact hinv p hpl
  | release id r =>
    replace h : release_funds s id r = .ok s' := h
    obtain ⟨rec, bal2, hrec, hst, htr, rfl⟩ := release_ok_elim h
    intro p hp
    rcases mem_updKey hp with rfl | ⟨hpl, _⟩
    · have hiv : recordInv rec := hinv _ (lookupKey_mem hrec)
      unfold recordInv at hiv
      obtain ⟨h0, h1, _, _⟩ := hiv
      refine ⟨?_, ?_, ?_, ?_⟩
      · show (0 : Int) ≤ 0
        omega
      · show (0 : Int) ≤ rec.amount
        omega
      · intro _
        exact Or.inl rfl
      · intro hgt _
        have hgt' : (0 : Int) < 0 := hgt
        omega
    · exact hinv p hpl
  | doRefund id a? r? m n =>
    replace h : refund s id a? r? m n = .ok s' := h
    obtain ⟨rec, amt, rcpt, hrec, hst, hadm, hFull, hnFull, hPart, hCust,
      hle, happ⟩ := refund_ok_elim h
    obtain ⟨bal2, htr, rfl⟩ := applyRefund_ok_elim happ
    intro p hp
    rcases mem_updKey hp with rfl | ⟨hpl, _⟩
    · refine recordInv_refund (hinv _ (lookupKey_mem hrec)) ?_ hle
      by_cases hm : m = .Full
      · exact Or.inr (hFull hm).1
      · exact Or.inl (hnFull hm).1
    · exact hinv p hpl
  | approve c id a r m =>
    replace h : approve_refund s c id a r m = .ok s' := h
    obtain ⟨hc, rfl⟩ := approve_ok_elim h
    intro p hp
    exact hinv p hp

/-- Claim C1 witness: releasing the demo bounty preserves the invariant. -/
theorem c1_witness :
    escrowInv (okOr (estep demoState (.release 1 20)) demoState) :=
  c1_escrow_invariant demoState (.release 1 20)
    (okOr (estep demoState (.release 1 20)) demoState) (by decide)
    (fun _ _ _ _ _ hh => EOp.noConfusion hh) rfl

set_option maxRecDepth 8000

/-- Claim C1 counterexample: as stated over every reachable record, the
invariant fails — locking a bounty with amount 0 (which the spec's lock
operation does not reject, and the transfer collaborator accepts) yields
a record with `remaining_amount = 0` whose status is `Locked`, not
`Released`/`Refunded`. -/
theorem c1_counterexample :
    (lock_funds escrowInit 10 1 0 100 0).map (fun s => lookupKey 1 s.escrows) =
      .ok (some { depositor := 10, amount := 0, remaining_amount := 0,
                  status := .Locked, deadline := 100 }) ∧
    ¬ recordInv { depositor := 10, amount := 0, remaining_amount := 0,
                  status := .Locked, deadline := 100 } :=
  ⟨rfl, by decide⟩

/-! ### Claim C4: the refund history -/

/-- Claim C4, amended: for every bounty whose status is not `Released`,
the sum of its refund history equals `amount - remaining_amount`, and
this is preserved by every operation; each successful refund appends
exactly one record at the end of the bounty's history, and a remainder
that reaches zero always comes with status `Refunded`. -/
theorem c4_history_invariant (s : EscrowState) (op : EOp) (s' : EscrowState)
    (hinv : historyInv s) (h : estep s op = .ok s') :
    historyInv s' ∧
    (∀ id a? r? m n, op = .doRefund id a? r? m n →
      (∃ rr, get_refund_history s' id = get_refund_history s id ++ [rr]) ∧
      (∀ rec', lookupKey id s'.escrows = some rec' →
        rec'.remaining_amount = 0 → rec'.status = .Refunded)) := by
  unfold historyInv at hinv
  obtain ⟨hsum, hsub⟩ := hinv
  cases op with
  | lock d id a dl n =>
    replace h : lock_funds s d id a dl n = .ok s' := h
    obtain ⟨act, bal2, hnone, hact, htr, rfl⟩ := lock_ok_elim h
    refine ⟨⟨?_, ?_⟩, fun _ _ _ _ _ hh => EOp.noConfusion hh⟩
    · intro p hp hstat
      rcases mem_updKey hp with rfl | ⟨hpl, hne⟩
      · have hhist : lookupKey id s.histories = none := by
          cases hh : lookupKey id s.histories with
          | none => rfl
          | some L =>
            have h2 := hsub _ (lookupKey_mem hh)
            rw [hnone] at h2
            exact absurd h2 (by decide)
        show histSum { s with
            escrows := updKey id
              { depositor := d, amount := a, remaining_amount := a,
                status := .Locked, deadline := dl } s.escrows,
            activities := updKey d act s.activities,
            balances := bal2 } id = a - a
        simp only [histSum, get_refund_history, hhist]
        simp
      · simp only [histSum, get_refund_history]
        exact hsum p hpl hstat
    · intro p hp
      by_cases hpe : p.1 = id
      · show (lookupKey p.1 (updKey id
          { depositor := d, amount := a, remaining_amount := a,
            status := .Locked, deadline := dl } s.escrows)).isSome = true
        rw [hpe, lookupKey_updKey_self]
        rfl
      · show (lookupKey p.1 (updKey id
          { depositor := d, amount := a, remaining_amount := a,
            status := .Locked, deadline := dl } s.escrows)).isSome = true
        rw [lookupKey_updKey_ne hpe]
        exact hsub p hp
  | release id r =>
    replace h : release_funds s id r = .ok s' := h
    obtain ⟨rec, bal2, hrec, hst, htr, rfl⟩ := release_ok_elim h
    refine ⟨⟨?_, ?_⟩, fun _ _ _ _ _ hh => EOp.noConfusion hh⟩
    · intro p hp hstat
      rcases mem_updKey hp with rfl | ⟨hpl, hne⟩
      · exact absurd rfl hstat
      · simp only [histSum, get_refund_history]
        exact hsum p hpl hstat
    · intro p hp
      by_cases hpe : p.1 = id
      · show (lookupKey p.1 (updKey id
          { rec with remaining_amount := 0, status := .Released }
          s.escrows)).isSome = true
        rw [hpe, lookupKey_updKey_self]
        rfl
      · show (lookupKey p.1 (updKey id
          { rec with remaining_amount := 0, status := .Released }
          s.escrows)).isSome = true
        rw [lookupKey_updKey_ne hpe]
        exact hsub p hp
  | approve c id a r m =>
    replace h : approve_refund s c id a r m = .ok s' := h
    obtain ⟨hc, rfl⟩ := approve_ok_elim h
    refine ⟨⟨?_, ?_⟩, fun _ _ _ _ _ hh => EOp.noConfusion hh⟩
    · intro p hp hstat
      exact hsum p hp hstat
    · intro p hp
      exact hsub p hp
  | doRefund id a? r? m n =>
    replace h : refund s id a? r? m n = .ok s' := h
    obtain ⟨rec, amt, rcpt, hrec, hst, hadm, hFull, hnFull, hPart, hCust,
      hle, happ⟩ := refund_ok_elim h
    obtain ⟨bal2, htr, rfl⟩ := applyRefund_ok_elim happ
    have hstatus : rec.status ≠ .Released := by
      rcases hst with h1 | h1 <;> rw [h1] <;> decide
    have hpre : histSum s id = rec.amount - rec.remaining_amount :=
      hsum _ (lookupKey_mem hrec) hstatus
    have hself : get_refund_history { s with
        escrows := updKey id
          { rec with
              remaining_amount := rec.remaining_amount - amt,
              status := if rec.remaining_amount - amt = 0 then .Refunded
                        else .PartiallyRefunded } s.escrows,
        histories := updKey id
          (((lookupKey id s.histories).getD []) ++
            [{ amount := amt, recipient := rcpt, mode := m, timestamp := n }])
          s.histories,
        approvals := if approvedFor s id rec.depositor a? r? m then
            removeKey id s.approvals else s.approvals,
        balances := bal2 } id =
        get_refund_history s id ++
          [{ amount := amt, recipient := rcpt, mode := m, timestamp := n }] := by
      simp only [get_refund_history]
      rw [lookupKey_updKey_self]
      rfl
    refine ⟨⟨?_, ?_⟩, ?_⟩
    · intro p hp hstat
      rcases mem_updKey hp with rfl | ⟨hpl, hne⟩
      · show histSum _ id = rec.amount - (rec.remaining_amount - amt)
        unfold histSum
        rw [hself]
        simp only [List.map_append, List.sum_append, List.map_cons,
          List.map_nil, List.sum_cons, List.sum_nil]
        have hpre' : ((get_refund_history s id).map (fun r => r.amount)).sum =
            rec.amount - rec.remaining_amount := hpre
        rw [hpre']
        ring
      · simp only [histSum, get_refund_history]
        rw [lookupKey_updKey_ne hne]
        exact hsum p hpl hstat
    · intro p hp
      rcases mem_updKey hp with rfl | ⟨hpl, hne⟩
      · show (lookupKey id (updKey id
          { rec with
              remaining_amount := rec.remaining_amount - amt,
              status := if rec.remaining_amount - amt = 0 then .Refunded
                        else .PartiallyRefunded } s.escrows)).isSome = true
        rw [lookupKey_updKey_self]
        rfl
      · show (lookupKey p.1 (updKey id
          { rec with
              remaining_amount := rec.remaining_amount - amt,
              status := if rec.remaining_amount - amt = 0 then .Refunded
                        else .PartiallyRefunded } s.escrows)).isSome = true
        rw [lookupKey_updKey_ne hne]
        exact hsub p hpl
    · intro id2 a2? r2? m2 n2 hop
      injection hop with e1 e2 e3 e4 e5
      subst e1; subst e2; subst e3; subst e4; subst e5
      refine ⟨⟨{ amount := amt, recipient := rcpt, mode := m, timestamp := n },
        hself⟩, ?_⟩
      intro rec2 hrec2 hzero
      replace hrec2 : lookupKey id (updKey id
          { rec with
              remaining_amount := rec.remaining_amount - amt,
              status := if rec.remaining_amount - amt = 0 then .Refunded
                        else .PartiallyRefunded } s.escrows) = some rec2 := hrec2
      rw [lookupKey_updKey_self] at hrec2
      injection hrec2 with h6
      rw [← h6] at hzero
      have hz : rec.remaining_amount - amt = 0 := hzero
      rw [← h6]
      show (if rec.remaining_amount - amt = 0 then EscrowStatus.Refunded
            else .PartiallyRefunded) = .Refunded
      rw [if_pos hz]

/-- Claim C4 witness: a concrete partial refund out of the demo bounty
preserves the history invariant. -/
theorem c4_witness :
    historyInv (okOr (estep demoState (.doRefund 1 (some 300) none .Partial 101))
      demoState) :=
  (c4_history_invariant demoState (.doRefund 1 (some 300) none .Partial 101)
    (okOr (estep demoState (.doRefund 1 (some 300) none .Partial 101)) demoState)
    (by decide) rfl).1

/-- Claim C4 counterexample: as stated ("the sum of the amounts in the
refund history equals `amount - remaining_amount` after every sequence of
operations"), the claim fails after `release_funds`: the released bounty
has `remaining_amount = 0` but an empty refund history, whose sum 0
differs from `amount - remaining_amount = 1000`. -/
theorem c4_counterexample :
    ((lock_funds escrowInit 10 1 1000 100 0).bind
      (fun s1 => release_funds s1 1 20)).map
      (fun s => (histSum s 1, lookupKey 1 s.escrows)) =
      .ok (0, some { depositor := 10, amount := 1000, remaining_amount := 0,
                     status := .Released, deadline := 100 }) ∧
    (0 : Int) ≠ 1000 - 0 :=
  ⟨rfl, by decide⟩

/-! ### Forward equations for the escrow operations -/

theorem refund_eq_go {s : EscrowState} {id : Nat} {rec : EscrowRecord}
    (a? : Option Int) (r? : Option Nat) (m : RefundMode) (now : Nat)
    (hrec : lookupKey id s.escrows = some rec) :
    refund s id a? r? m now = refundGo s id rec a? r? m now := by
  unfold refund
  rw [hrec]

theorem approvedFor_eq_false {s : EscrowState} {id : Nat} (dep : Nat)
    (a? : Option Int) (r? : Option Nat) (m : RefundMode)
    (h : lookupKey id s.approvals = none) :
    approvedFor s id dep a? r? m = false := by
  unfold approvedFor
  rw [h]

theorem approvedFor_Full (s : EscrowState) (id dep : Nat) (a? : Option Int)
    (r? : Option Nat) :
    approvedFor s id dep a? r? .Full = false := by
  unfold approvedFor
  cases lookupKey id s.approvals with
  | none => rfl
  | some ap => rfl

/-! ### Claim C2: full refunds and the exclusive deadline -/

/-- Claim C2: on a `Locked` bounty with no stored approval, a `Full`-mode
refund fails with `DeadlineNotPassed` whenever `now ≤ deadline` (the
boundary is exclusive), and strictly after the deadline it succeeds,
paying the full remainder to the depositor, zeroing `remaining_amount`
and setting the status to `Refunded` — whatever amount or recipient the
caller supplied. -/
theorem c2_full_refund (s : EscrowState) (id now : Nat) (a? : Option Int)
    (r? : Option Nat) (rec : EscrowRecord)
    (hrec : lookupKey id s.escrows = some rec)
    (hst : rec.status = .Locked)
    (_hap : lookupKey id s.approvals = none)
    (hrem : 0 ≤ rec.remaining_amount)
    (hbal : rec.remaining_amount ≤ s.balances s.contractAddr)
    (hne : rec.depositor ≠ s.contractAddr) :
    (now ≤ rec.deadline →
      refund s id a? r? .Full now = .error .DeadlineNotPassed) ∧
    (rec.deadline < now → ∃ s',
      refund s id a? r? .Full now = .ok s' ∧
      lookupKey id s'.escrows =
        some { rec with remaining_amount := 0, status := .Refunded } ∧
      s'.balances rec.depositor =
        s.balances rec.depositor + rec.remaining_amount ∧
      s'.balances s.contractAddr =
        s.balances s.contractAddr - rec.remaining_amount) := by
  constructor
  · intro hnow
    rw [refund_eq_go a? r? .Full now hrec]
    unfold refundGo
    rw [if_pos (Or.inl hst), approvedFor_Full,
      show decide (rec.deadline < now) = false from by
        simp only [decide_eq_false_iff_not]; omega]
    rfl
  · intro hdl
    have happ := @applyRefund_eq_ok s id rec rec.remaining_amount
      rec.depositor .Full now (approvedFor s id rec.depositor a? r? .Full)
      hrem hbal
    have hfull : refund s id a? r? .Full now = .ok { s with
        escrows := updKey id
          { rec with
              remaining_amount := rec.remaining_amount - rec.remaining_amount,
              status := if rec.remaining_amount - rec.remaining_amount = 0
                        then .Refunded else .PartiallyRefunded } s.escrows,
        histories := updKey id
          (((lookupKey id s.histories).getD []) ++
            [{ amount := rec.remaining_amount, recipient := rec.depositor,
               mode := .Full, timestamp := now }]) s.histories,
        approvals := if approvedFor s id rec.depositor a? r? .Full then
            removeKey id s.approvals else s.approvals,
        balances := applyTransfer s.balances s.contractAddr rec.depositor
          rec.remaining_amount } := by
      rw [refund_eq_go a? r? .Full now hrec]
      unfold refundGo
      rw [if_pos (Or.inl hst),
        show decide (rec.deadline < now) = true from by
          simp only [decide_eq_true_eq]; exact hdl,
        Bool.true_or, if_pos rfl]
      exact happ
    refine ⟨_, hfull, ?_, ?_, ?_⟩
    · show lookupKey id (updKey id
        { rec with
            remaining_amount := rec.remaining_amount - rec.remaining_amount,
            status := if rec.remaining_amount - rec.remaining_amount = 0
                      then .Refunded else .PartiallyRefunded } s.escrows) =
          some { rec with remaining_amount := 0, status := .Refunded }
      rw [lookupKey_updKey_self]
      simp
    · show applyTransfer s.balances s.contractAddr rec.depositor
        rec.remaining_amount rec.depositor =
        s.balances rec.depositor + rec.remaining_amount
      rw [applyTransfer_dst hne]
    · show applyTransfer s.balances s.contractAddr rec.depositor
        rec.remaining_amount s.contractAddr =
        s.balances s.contractAddr - rec.remaining_amount
      rw [applyTransfer_src (fun hh => hne hh.symm)]

/-- Claim C2 witness: exactly at the deadline the full refund still fails
(the demo bounty's deadline is 100). -/
theorem c2_witness :
    refund demoState 1 none none .Full 100 = .error .DeadlineNotPassed :=
  (c2_full_refund demoState 1 100 none none
    { depositor := 10, amount := 1000, remaining_amount := 1000,
      status := .Locked, deadline := 100 }
    rfl rfl rfl (by decide) (by decide) (by decide)).1 (by decide)

/-! ### Claim C5: release_funds -/

/-- Claim C5: `release_funds` fails with `BountyNotFound` on an unknown
identifier and with `FundsNotLocked` on any status other than `Locked`;
on success it pays the full remainder to the recipient, zeroes it and
marks the record `Released`, so a second release fails `FundsNotLocked`
and the balance moves only once. -/
theorem c5_release_funds (s : EscrowState) (id rcpt : Nat) :
    (lookupKey id s.escrows = none →
      release_funds s id rcpt = .error .BountyNotFound) ∧
    (∀ rec, lookupKey id s.escrows = some rec → rec.status ≠ .Locked →
      release_funds s id rcpt = .error .FundsNotLocked) ∧
    (∀ rec s', lookupKey id s.escrows = some rec →
      release_funds s id rcpt = .ok s' →
      lookupKey id s'.escrows =
        some { rec with remaining_amount := 0, status := .Released } ∧
      (rcpt ≠ s.contractAddr →
        s'.balances rcpt = s.balances rcpt + rec.remaining_amount ∧
        s'.balances s.contractAddr =
          s.balances s.contractAddr - rec.remaining_amount) ∧
      (∀ r2, release_funds s' id r2 = .error .FundsNotLocked)) := by
  refine ⟨?_, ?_, ?_⟩
  · intro hnone
    unfold release_funds
    rw [hnone]
  · intro rec hrec hst
    unfold release_funds
    rw [hrec]
    show releaseGo s id rcpt rec = .error .FundsNotLocked
    unfold releaseGo
    rw [if_neg hst]
  · intro rec s' hrec hok
    obtain ⟨rec0, bal2, hrec0, hst0, htr0, hs'⟩ := release_ok_elim hok
    rw [hrec] at hrec0
    injection hrec0 with he
    subst he
    obtain ⟨hamt0, hbal0, hbal2⟩ := transfer_ok_elim htr0
    have hesc : lookupKey id s'.escrows =
        some { rec with remaining_amount := 0, status := .Released } := by
      rw [hs']
      exact lookupKey_updKey_self id _ s.escrows
    refine ⟨hesc, ?_, ?_⟩
    · intro hne
      constructor
      · rw [hs', hbal2]
        exact applyTransfer_dst hne rec.remaining_amount
      · rw [hs', hbal2]
        exact applyTransfer_src (fun hh => hne hh.symm) rec.remaining_amount
    · intro r2
      unfold release_funds
      rw [hesc]
      show releaseGo s' id r2
        { rec with remaining_amount := 0, status := .Released } =
        .error .FundsNotLocked
      unfold releaseGo
      rw [if_neg (by simp)]

/-- Claim C5 witness: releasing an unknown bounty fails `BountyNotFound`. -/
theorem c5_witness : release_funds demoState 2 20 = .error .BountyNotFound :=
  (c5_release_funds demoState 2 20).1 rfl

/-! ### Claim C7: lock_funds -/

/-- Claim C7: `lock_funds` on a fresh identifier creates the record with
status `Locked` and `remaining_amount = amount` while moving the amount
from the depositor to the contract in the same atomic call, and any
second lock on the same identifier always fails with `BountyExists`,
whatever its parameters. -/
theorem c7_lock_funds (s : EscrowState) (d id : Nat) (a : Int)
    (dl now : Nat) :
    ((lookupKey id s.escrows).isSome = true →
      lock_funds s d id a dl now = .error .BountyExists) ∧
    (∀ s', lock_funds s d id a dl now = .ok s' →
      lookupKey id s'.escrows = some
        { depositor := d, amount := a, remaining_amount := a,
          status := .Locked, deadline := dl } ∧
      (d ≠ s.contractAddr →
        s'.balances d = s.balances d - a ∧
        s'.balances s.contractAddr = s.balances s.contractAddr + a) ∧
      (∀ d2 a2 dl2 n2, lock_funds s' d2 id a2 dl2 n2 =
        .error .BountyExists)) := by
  refine ⟨?_, ?_⟩
  · intro hsome
    unfold lock_funds
    rw [if_pos hsome]
  · intro s' hok
    obtain ⟨act, bal2, hnone, hact, htr, hs'⟩ := lock_ok_elim hok
    obtain ⟨hamt, hbal, hbal2⟩ := transfer_ok_elim htr
    have hesc : lookupKey id s'.escrows = some
        { depositor := d, amount := a, remaining_amount := a,
          status := .Locked, deadline := dl } := by
      rw [hs']
      exact lookupKey_updKey_self id _ s.escrows
    refine ⟨hesc, ?_, ?_⟩
    · intro hne
      constructor
      · rw [hs', hbal2]
        exact applyTransfer_src hne a
      · rw [hs', hbal2]
        exact applyTransfer_dst (fun hh => hne hh.symm) a
    · intro d2 a2 dl2 n2
      unfold lock_funds
      rw [if_pos (by rw [hesc]; rfl)]

/-- Claim C7 witness: locking the already-used demo identifier fails
`BountyExists`. -/
theorem c7_witness : lock_funds demoState 10 1 500 200 0 = .error .BountyExists :=
  (c7_lock_funds demoState 10 1 500 200 0).1 rfl

/-! ### Claim C6: the InvalidAmount precondition failures -/

/-- Claim C6: with the bounty refundable and the deadline passed, each of
the four invalid-amount shapes — amount 0, amount above the remainder,
`Custom` with no amount, `Custom` with no recipient — fails with
`InvalidAmount`.  In this embedding an error return carries no state, so
a failed call leaves the escrow record, the history and every balance
untouched by construction. -/
theorem c6_invalid_amounts (s : EscrowState) (id now r : Nat)
    (rec : EscrowRecord)
    (hrec : lookupKey id s.escrows = some rec)
    (hst : rec.status = .Locked ∨ rec.status = .PartiallyRefunded)
    (hdl : rec.deadline < now) :
    refund s id (some 0) none .Partial now = .error .InvalidAmount ∧
    (∀ a : Int, rec.remaining_amount < a →
      refund s id (some a) none .Partial now = .error .InvalidAmount) ∧
    refund s id none (some r) .Custom now = .error .InvalidAmount ∧
    (∀ a : Int, refund s id (some a) none .Custom now =
      .error .InvalidAmount) := by
  have hd : decide (rec.deadline < now) = true := by
    simp only [decide_eq_true_eq]
    exact hdl
  refine ⟨?_, ?_, ?_, ?_⟩
  · rw [refund_eq_go (some 0) none .Partial now hrec]
    unfold refundGo
    rw [if_pos hst, hd, Bool.true_or, if_pos rfl]
    unfold refundModes
    simp
  · intro a hgt
    rw [refund_eq_go (some a) none .Partial now hrec]
    unfold refundGo
    rw [if_pos hst, hd, Bool.true_or, if_pos rfl]
    unfold refundModes
    simp only [if_neg (show ¬(0 < a ∧ a ≤ rec.remaining_amount) from
      fun hc => by omega)]
  · rw [refund_eq_go none (some r) .Custom now hrec]
    unfold refundGo
    rw [if_pos hst, hd, Bool.true_or, if_pos rfl]
    unfold refundModes
    simp
  · intro a
    rw [refund_eq_go (some a) none .Custom now hrec]
    unfold refundGo
    rw [if_pos hst, hd, Bool.true_or, if_pos rfl]
    unfold refundModes
    simp

/-- Claim C6 witness: refunding amount 0 after the deadline fails with
`InvalidAmount`. -/
theorem c6_witness :
    refund demoState 1 (some 0) none .Partial 101 = .error .InvalidAmount :=
  (c6_invalid_amounts demoState 1 101 20
    { depositor := 10, amount := 1000, remaining_amount := 1000,
      status := .Locked, deadline := 100 }
    rfl (Or.inl rfl) (by decide)).1

/-! ### Claim C3: custom refunds gated by approvals -/

/-- Is a present amount positive and within the remainder? -/
def amountValid (a? : Option Int) (rem : Int) : Bool :=
  match a? with
  | some a => decide (0 < a ∧ a ≤ rem)
  | none => false

/-- Claim C3, amended: before the deadline, a `Custom`-mode refund on a
refundable bounty succeeds iff the stored approval exactly matches the
call's `(amount, recipient, mode)` AND the approved amount is valid
(positive and at most the remainder — approval does not validate it, the
refund call does); any mismatch (or missing approval) fails with
`RefundNotApproved`; a successful approval-gated refund deletes the
approval, so, as long as a positive remainder is left, repeating the very
same call fails with `RefundNotApproved`. -/
theorem c3_custom_approval (s : EscrowState) (id now : Nat) (a? : Option Int)
    (r? : Option Nat) (rec : EscrowRecord)
    (hrec : lookupKey id s.escrows = some rec)
    (hst : rec.status = .Locked ∨ rec.status = .PartiallyRefunded)
    (hdl : now ≤ rec.deadline)
    (hbal : rec.remaining_amount ≤ s.balances s.contractAddr) :
    ((∃ s', refund s id a? r? .Custom now = .ok s') ↔
      (approvedFor s id rec.depositor a? r? .Custom = true ∧
       amountValid a? rec.remaining_amount = true)) ∧
    (approvedFor s id rec.depositor a? r? .Custom = false →
      refund s id a? r? .Custom now = .error .RefundNotApproved) ∧
    (∀ s', refund s id a? r? .Custom now = .ok s' →
      lookupKey id s'.approvals = none ∧
      (∀ rec', lookupKey id s'.escrows = some rec' →
        0 < rec'.remaining_amount →
        ∀ b? q?, refund s' id b? q? .Custom now =
          .error .RefundNotApproved)) := by
  have hd : decide (rec.deadline < now) = false := by
    simp only [decide_eq_false_iff_not]
    omega
  have hmismatch : approvedFor s id rec.depositor a? r? .Custom = false →
      refund s id a? r? .Custom now = .error .RefundNotApproved := by
    intro hapf
    rw [refund_eq_go a? r? .Custom now hrec]
    unfold refundGo
    rw [if_pos hst, hd, hapf]
    rfl
  refine ⟨⟨?_, ?_⟩, hmismatch, ?_⟩
  · rintro ⟨s', hok⟩
    obtain ⟨rec2, amt, rcpt, hrec2, hst2, hadm2, hFull2, hnFull2, hPart2,
      hCust2, hle2, happ2⟩ := refund_ok_elim hok
    rw [hrec] at hrec2
    injection hrec2 with he
    subst he
    have happroved : approvedFor s id rec.depositor a? r? .Custom = true := by
      rw [hd, Bool.false_or] at hadm2
      exact hadm2
    obtain ⟨hpos, haeq⟩ := hnFull2 (by decide)
    refine ⟨happroved, ?_⟩
    rw [haeq]
    show decide (0 < amt ∧ amt ≤ rec.remaining_amount) = true
    exact decide_eq_true ⟨hpos, hle2⟩
  · rintro ⟨hap, hav⟩
    have hmatch := hap
    unfold approvedFor at hmatch
    split at hmatch
    case h_1 ap hlap =>
      unfold approvalMatches at hmatch
      obtain ⟨hmode, haeq, hreq⟩ := of_decide_eq_true hmatch
      subst haeq
      subst hreq
      have hval : 0 < ap.amount ∧ ap.amount ≤ rec.remaining_amount := by
        have hav' : decide (0 < ap.amount ∧ ap.amount ≤ rec.remaining_amount)
            = true := hav
        exact of_decide_eq_true hav'
      have hsucc : refund s id (some ap.amount) (some ap.recipient) .Custom
          now = .ok { s with
          escrows := updKey id
            { rec with
                remaining_amount := rec.remaining_amount - ap.amount,
                status := if rec.remaining_amount - ap.amount = 0
                          then .Refunded else .PartiallyRefunded } s.escrows,
          histories := updKey id
            (((lookupKey id s.histories).getD []) ++
              [{ amount := ap.amount, recipient := ap.recipient,
                 mode := .Custom, timestamp := now }]) s.histories,
          approvals := if approvedFor s id rec.depositor (some ap.amount)
              (some ap.recipient) .Custom then removeKey id s.approvals
              else s.approvals,
          balances := applyTransfer s.balances s.contractAddr ap.recipient
            ap.amount } := by
        rw [refund_eq_go (some ap.amount) (some ap.recipient) .Custom now hrec]
        unfold refundGo
        rw [if_pos hst, hap, Bool.or_true, if_pos rfl]
        show (if 0 < ap.amount ∧ ap.amount ≤ rec.remaining_amount then
          applyRefund s id rec ap.amount ap.recipient .Custom now
            (approvedFor s id rec.depositor (some ap.amount)
              (some ap.recipient) .Custom)
          else Except.error .InvalidAmount) = _
        rw [if_pos hval, hap]
        exact applyRefund_eq_ok ap.recipient .Custom now true (le_of_lt hval.1)
          (le_trans hval.2 hbal)
      exact ⟨_, hsucc⟩
    case h_2 hlap => exact absurd hmatch (by decide)
  · intro s' hok
    obtain ⟨rec2, amt, rcpt, hrec2, hst2, hadm2, hFull2, hnFull2, hPart2,
      hCust2, hle2, happ2⟩ := refund_ok_elim hok
    rw [hrec] at hrec2
    injection hrec2 with he
    subst he
    obtain ⟨bal2, htr2, hs'⟩ := applyRefund_ok_elim happ2
    have happroved : approvedFor s id rec.depositor a? r? .Custom = true := by
      rw [hd, Bool.false_or] at hadm2
      exact hadm2
    have hapnone : lookupKey id s'.approvals = none := by
      rw [hs']
      show lookupKey id (if approvedFor s id rec.depositor a? r? .Custom = true
        then removeKey id s.approvals else s.approvals) = none
      rw [happroved, if_pos rfl]
      exact lookupKey_removeKey_self id s.approvals
    have hescrow : lookupKey id s'.escrows = some
        { rec with
            remaining_amount := rec.remaining_amount - amt,
            status := if rec.remaining_amount - amt = 0 then .Refunded
                      else .PartiallyRefunded } := by
      rw [hs']
      exact lookupKey_updKey_self id _ s.escrows
    refine ⟨hapnone, ?_⟩
    intro rec' hrec' hpos' b? q?
    rw [hescrow] at hrec'
    injection hrec' with he2
    have hz : rec.remaining_amount - amt ≠ 0 := by
      rw [← he2] at hpos'
      have hpos'' : 0 < rec.remaining_amount - amt := hpos'
      omega
    rw [refund_eq_go b? q? .Custom now hescrow]
    unfold refundGo
    rw [if_pos (Or.inr (show ({ rec with
        remaining_amount := rec.remaining_amount - amt,
        status := if rec.remaining_amount - amt = 0 then .Refunded
                  else .PartiallyRefunded } : EscrowRecord).status =
        .PartiallyRefunded from by
      show (if rec.remaining_amount - amt = 0 then EscrowStatus.Refunded
            else .PartiallyRefunded) = .PartiallyRefunded
      rw [if_neg hz]))]
    rw [approvedFor_eq_false _ b? q? .Custom hapnone]
    rw [show decide (({ rec with
        remaining_amount := rec.remaining_amount - amt,
        status := if rec.remaining_amount - amt = 0 then .Refunded
                  else .PartiallyRefunded } : EscrowRecord).deadline < now) =
        false from hd]
    rfl

/-- Claim C3 witness: with an approval for 500 stored, a custom refund
request for 600 before the deadline fails with `RefundNotApproved`. -/
theorem c3_witness :
    refund demoApproved 1 (some 600) (some 20) .Custom 5 =
      .error .RefundNotApproved :=
  (c3_custom_approval demoApproved 1 5 (some 600) (some 20)
    { depositor := 10, amount := 1000, remaining_amount := 1000,
      status := .Locked, deadline := 100 }
    rfl (Or.inl rfl) (by decide) (by decide)).2.1 (by decide)

/-- Claim C3 counterexample: the claim's "succeeds iff a stored approval
exactly matches `(amount, recipient, mode)`" fails on the code: approvals
are not validated against the remaining balance when stored, so a stored
`Custom` approval for 2000 on a bounty holding 1000 matches the call's
parameters exactly and yet the refund fails with `InvalidAmount`. -/
theorem c3_counterexample :
    ((lock_funds escrowInit 10 1 1000 100 0).bind
      (fun s1 => approve_refund s1 99 1 2000 20 .Custom)).map
      (fun s2 => lookupKey 1 s2.approvals) =
      .ok (some { amount := 2000, recipient := 20, mode := .Custom,
                  approved_by := 99 }) ∧
    ((lock_funds escrowInit 10 1 1000 100 0).bind
      (fun s1 => approve_refund s1 99 1 2000 20 .Custom)).bind
      (fun s2 => refund s2 1 (some 2000) (some 20) .Custom 50) =
      .error .InvalidAmount :=
  ⟨rfl, rfl⟩
